import Mathlib

/-!
Verification development for the entity-resolution and slot-filling core of
the homeassistant-rasa integration (custom_components/rasa).  The Python
source is shallowly embedded: dynamic slot values become the `Val` sum,
Python dicts become ordered association lists with overwrite-on-insert,
Python sets become duplicate-free lists built with insertion order (the set
CONTENTS match the source; Python set iteration order is unspecified and we
fix insertion order), numbers become `ℚ`, and code that can raise becomes
`Except`.
-/

namespace Rasa

/-- Dynamic values held in Rasa tracker slots and slot-update dicts
(`None`, `str`, `list[str]`, numbers, `bool`). -/
inductive Val where
  | none
  | str (s : String)
  | list (l : List String)
  | num (q : ℚ)
  | bool (b : Bool)
  deriving DecidableEq, Repr

/-- Python truthiness for the values a slot can hold. -/
def truthy : Val → Bool
  | Val.none => false
  | Val.str s => !s.data.isEmpty
  | Val.list l => !l.isEmpty
  | Val.num q => if q = 0 then false else true
  | Val.bool b => b

/-- The ConstraintSet: the six slots the forms read and write
(actions.py, domain slots).  A Python tracker dict restricted to the keys
the embedded code touches. -/
structure Slots where
  location : Val
  device : Val
  parameter : Val
  action : Val
  amount : Val
  multiple : Val
  deriving DecidableEq, Repr

/-- One exposed entity's info dict as built by `_get_exposed_entities`
(hass_if.py lines 168-181): `names`, `domain`, `attributes`, `action`.
The `platform` and `area_ids` fields are never read by the matcher and are
omitted; area membership lives in `AreaInfo.entity_ids`. -/
structure EntityInfo where
  names : List String
  domain : String
  attributes : List String
  action : List String
  deriving DecidableEq, Repr

/-- An area's info dict: its names and (derived) member entity ids. -/
structure AreaInfo where
  names : List String
  entity_ids : List String
  deriving DecidableEq, Repr

/-- A floor's info dict: names, member area ids and flattened entity ids. -/
structure FloorInfo where
  names : List String
  area_ids : List String
  entity_ids : List String
  deriving DecidableEq, Repr

/-- The state of `HassIface` after `load()` (hass_if.py lines 243-270).
The `*_by_name` reverse maps hold, per lowercased name, the value dict of the
mapped object; only its `id` entry is ever read by the location helpers, so we
store the id directly. -/
structure Hass where
  entity_by_id : List (String × EntityInfo)
  area_by_id : List (String × AreaInfo)
  floor_by_id : List (String × FloorInfo)
  area_by_name : List (String × String)
  floor_by_name : List (String × String)
  deriving DecidableEq, Repr

/-- Python dict lookup (`d[k]` / `d.get(k)`); keys are unique in all dicts the
source builds, so first match is the match. -/
def dlookup {α : Type} : List (String × α) → String → Option α
  | [], _ => Option.none
  | (k, v) :: rest, key => if k = key then some v else dlookup rest key

/-- Python dict write `d[k] = v`: replace in place when the key exists,
append otherwise (insertion order preserved, exactly one entry per key). -/
def dictInsert {α : Type} (d : List (String × α)) (key : String) (v : α) : List (String × α) :=
  match d with
  | [] => [(key, v)]
  | (k0, v0) :: rest =>
    if k0 = key then (key, v) :: rest else (k0, v0) :: dictInsert rest key v

/-- Python `d.update(upd)`: write every pair of `upd` into `d` in order. -/
def dictUpdate {α : Type} (d : List (String × α)) (upd : List (String × α)) : List (String × α) :=
  upd.foldl (fun acc p => dictInsert acc p.1 p.2) d

/-- Python `set.add`: duplicate-free list in insertion order. -/
def sinsert (l : List String) (x : String) : List String :=
  if x ∈ l then l else l ++ [x]

/-- Python `set.update(xs)`. -/
def sunion (l : List String) (xs : List String) : List String :=
  xs.foldl sinsert l

/-- Python `set(xs)`. -/
def listToSet (l : List String) : List String :=
  sunion [] l

def entityById (h : Hass) (eid : String) : Option EntityInfo :=
  dlookup h.entity_by_id eid

/-- `HassIface._get_entities_by_area` (hass_if.py lines 377-385): entity ids
of the area with this id, then of the floor with this id. -/
def _get_entities_by_area (h : Hass) (area_id : String) : List String :=
  (match dlookup h.area_by_id area_id with
   | some a => a.entity_ids
   | Option.none => []) ++
  (match dlookup h.floor_by_id area_id with
   | some f => f.entity_ids
   | Option.none => [])

/-- The inner loop of `_match_actions` (hass_if.py lines 319-321): add every
candidate spelling the entity supports. -/
def actionCandFold (ent : List String) (acc : List String) (cands : List String) : List String :=
  cands.foldl (fun acc2 c => if c ∈ ent then sinsert acc2 c else acc2) acc

/-- `HassIface._match_actions` (hass_if.py lines 306-323): for each requested
action try the three candidate spellings and collect those the entity
supports. -/
def _match_actions (entity : EntityInfo) (actions : List String) : List String :=
  actions.foldl (fun acc a =>
    actionCandFold entity.action acc [a, a ++ "_" ++ entity.domain, entity.domain ++ "_" ++ a]) []

/-- The filter body of `HassIface._entity_is_candidate`
(hass_if.py lines 338-364), applied to the looked-up entity info: each of
the source's early `return False` checks in order. -/
def entityPassesFilters (entity : EntityInfo) (entity_names : List String)
    (attributes : List String) (actions : List String) : Bool :=
  if entity_names ≠ [] ∧ (∀ n ∈ entity.names, n ∉ entity_names) ∧
      entity.domain ∉ entity_names then
    false
  else if attributes ≠ [] ∧ entity.attributes ≠ [] ∧
      (∀ a ∈ entity.attributes, a ∉ attributes) then
    false
  else if attributes ≠ [] ∧ entity.attributes = [] then
    false
  else if actions ≠ [] ∧ entity.action = [] then
    false
  else true

/-- `HassIface._entity_is_candidate` (hass_if.py lines 325-364): look the
entity up, then run the filters.  The source indexes
`self._entity_by_id[entity_id]`, which raises `KeyError` for an id absent
from the catalog; the catalog invariant (areas are built from the entities)
rules that out, and we let a dangling id simply fail the filter. -/
def _entity_is_candidate (h : Hass) (entity_id : String) (entity_names : List String)
    (attributes : List String) (actions : List String) : Bool :=
  match entityById h entity_id with
  | Option.none => false
  | some entity => entityPassesFilters entity entity_names attributes actions

/-- The coercions `match_entities` applies to the `parameter` and `action`
slots (hass_if.py lines 418-430): a string becomes a singleton list, `None`
becomes the empty list, a list passes through.  The `device` slot is passed
to `_entity_is_candidate` uncoerced in the source, but the forms only ever
store `None` or a list of names there, for which this agrees. -/
def asList : Val → List String
  | Val.str s => [s]
  | Val.list l => l
  | _ => []

/-- The candidate-area computation of `match_entities`
(hass_if.py lines 405-414): an empty (falsy or `None`) location slot selects
every area id of the catalog; a string selects the singleton; a list its
set.  Other truthy values make the source raise `TypeError` and are
unreachable from the forms; they select nothing here. -/
def candidateAreas (h : Hass) (slots : Slots) : List String :=
  if truthy slots.location = false then listToSet (h.area_by_id.map Prod.fst)
  else match slots.location with
    | Val.str s => [s]
    | Val.list l => listToSet l
    | _ => []

/-- The four accumulated result sets of `match_entities`, in the source's
return order `(actions, areas, entities, attributes)`. -/
structure MatchResult where
  actions : List String
  areas : List String
  entities : List String
  attributes : List String
  deriving DecidableEq, Repr

/-- The body of the inner loop of `match_entities`
(hass_if.py lines 449-486) for one `entity_id` in one `area_id`. -/
def matchStep (h : Hass) (dev params acts : List String) (is_adjust : Bool) (area_id : String)
    (acc : MatchResult) (entity_id : String) : MatchResult :=
  if _entity_is_candidate h entity_id dev params acts then
    match entityById h entity_id with
    | Option.none => acc
    | some entity =>
      let ent_actions := _match_actions entity acts
      if acts ≠ [] ∧ ent_actions = [] ∧ is_adjust = false then acc
      else
        let acc1 := { acc with actions :=
          (if acts ≠ [] then sunion acc.actions ent_actions else sunion acc.actions entity.action) }
        let acc2 := { acc1 with attributes :=
          (if params ≠ [] then
            sunion acc1.attributes (entity.attributes.filter (fun a => decide (a ∈ params)))
          else sunion acc1.attributes entity.attributes) }
        { acc2 with areas := sinsert acc2.areas area_id, entities := sinsert acc2.entities entity_id }
  else acc

/-- `parameter` slot coerced to a list (hass_if.py lines 418-423). -/
def slotParams (slots : Slots) : List String := asList slots.parameter

/-- `action` slot coerced to a list with the adjustment pseudo-actions
removed (hass_if.py lines 425-439). -/
def slotActions (slots : Slots) : List String :=
  (asList slots.action).filter (fun a => decide (a ≠ "set_relative" ∧ a ≠ "set_absolute"))

/-- `is_adjust` (hass_if.py line 438). -/
def slotIsAdjust (slots : Slots) : Bool :=
  decide ("set_relative" ∈ asList slots.action ∨ "set_absolute" ∈ asList slots.action)

/-- The inner loop of `match_entities` over every entity of one candidate
area (hass_if.py line 449). -/
def areaStep (h : Hass) (dev params acts : List String) (is_adjust : Bool)
    (acc : MatchResult) (aid : String) : MatchResult :=
  (_get_entities_by_area h aid).foldl (matchStep h dev params acts is_adjust aid) acc

/-- The double loop of `match_entities` over a given list of candidate area
ids (hass_if.py lines 444-486). -/
def matchOverAreas (h : Hass) (slots : Slots) (area_ids : List String) : MatchResult :=
  area_ids.foldl
    (areaStep h (asList slots.device) (slotParams slots) (slotActions slots) (slotIsAdjust slots))
    { actions := [], areas := [], entities := [], attributes := [] }

/-- `HassIface.match_entities` (hass_if.py lines 387-488). -/
def match_entities (h : Hass) (slots : Slots) : MatchResult :=
  matchOverAreas h slots (candidateAreas h slots)

/-- Python `str.rstrip(c)`: remove every trailing occurrence of `c`. -/
def pyRstrip (s : String) (c : Char) : String :=
  String.mk ((s.data.reverse.dropWhile (fun ch => ch == c)).reverse)

/-- Python `str.endswith(c)` for a one-character suffix: the last character
is `c`. -/
def pyEndswith (s : String) (c : Char) : Bool :=
  s.data.getLast? == some c

/-- `DeviceLocationForm._extract_device` (actions.py lines 133-150): a truthy
string device name becomes the filter list `[name]`; a name ending in the
letter s additionally appends `rstrip("s")` of it and sets `multiple`.
A truthy non-string would make the source raise (`.endswith` on a list). -/
def _extract_device (candidate : Val) : Except String (List (String × Val)) :=
  match candidate with
  | Val.str s =>
    if s.data.isEmpty then Except.ok []
    else if pyEndswith s 's' then
      Except.ok [("device", Val.list [s, pyRstrip s 's']), ("multiple", Val.bool true)]
    else
      Except.ok [("device", Val.list [s])]
  | v => if truthy v then Except.error "AttributeError: endswith" else Except.ok []

/-! ## Set-as-list lemmas -/

theorem mem_sinsert (l : List String) (x y : String) : y ∈ sinsert l x ↔ y ∈ l ∨ y = x := by
  unfold sinsert
  split
  · rename_i hx
    constructor
    · exact fun h2 => Or.inl h2
    · rintro (h2 | rfl)
      · exact h2
      · exact hx
  · simp

theorem mem_sunion (xs : List String) (l : List String) (y : String) :
    y ∈ sunion l xs ↔ y ∈ l ∨ y ∈ xs := by
  induction xs generalizing l with
  | nil => simp [sunion]
  | cons x xs ih =>
    show y ∈ sunion (sinsert l x) xs ↔ _
    rw [ih, mem_sinsert]
    simp only [List.mem_cons]
    tauto

theorem mem_listToSet (l : List String) (y : String) : y ∈ listToSet l ↔ y ∈ l := by
  rw [listToSet, mem_sunion]
  simp

/-! ## C4: the tri-form action heuristic -/

theorem mem_candidate_fold (ent : List String) (cands : List String) (acc : List String)
    (s : String) :
    s ∈ actionCandFold ent acc cands ↔ s ∈ acc ∨ (s ∈ cands ∧ s ∈ ent) := by
  induction cands generalizing acc with
  | nil => simp [actionCandFold]
  | cons c cs ih =>
    show s ∈ actionCandFold ent (if c ∈ ent then sinsert acc c else acc) cs ↔ _
    rw [ih]
    by_cases hc : c ∈ ent
    · rw [if_pos hc, mem_sinsert]
      simp only [List.mem_cons]
      constructor
      · rintro ((h | rfl) | ⟨h1, h2⟩)
        · exact Or.inl h
        · exact Or.inr ⟨Or.inl rfl, hc⟩
        · exact Or.inr ⟨Or.inr h1, h2⟩
      · rintro (h | ⟨(rfl | h1), h2⟩)
        · exact Or.inl (Or.inl h)
        · exact Or.inl (Or.inr rfl)
        · exact Or.inr ⟨h1, h2⟩
    · rw [if_neg hc]
      simp only [List.mem_cons]
      constructor
      · rintro (h | ⟨h1, h2⟩)
        · exact Or.inl h
        · exact Or.inr ⟨Or.inr h1, h2⟩
      · rintro (h | ⟨(rfl | h1), h2⟩)
        · exact Or.inl h
        · exact absurd h2 hc
        · exact Or.inr ⟨h1, h2⟩

theorem mem_match_actions_aux (entity : EntityInfo) (actions : List String)
    (acc : List String) (s : String) :
    s ∈ actions.foldl (fun acc a =>
        actionCandFold entity.action acc [a, a ++ "_" ++ entity.domain, entity.domain ++ "_" ++ a]) acc ↔
      s ∈ acc ∨ (s ∈ entity.action ∧ ∃ a ∈ actions,
        s = a ∨ s = a ++ "_" ++ entity.domain ∨ s = entity.domain ++ "_" ++ a) := by
  induction actions generalizing acc with
  | nil => simp
  | cons a as ih =>
    rw [List.foldl_cons, ih, mem_candidate_fold]
    simp only [List.mem_cons, List.not_mem_nil, or_false]
    constructor
    · rintro ((h | ⟨h1, h2⟩) | ⟨h1, b, hb, h2⟩)
      · exact Or.inl h
      · exact Or.inr ⟨h2, a, Or.inl rfl, h1⟩
      · exact Or.inr ⟨h1, b, Or.inr hb, h2⟩
    · rintro (h | ⟨h1, b, (rfl | hb), h2⟩)
      · exact Or.inl (Or.inl h)
      · exact Or.inl (Or.inr ⟨h2, h1⟩)
      · exact Or.inr ⟨h1, b, hb, h2⟩

/-- The cover scenario of the spec: domain `cover`, supported action
`stop_cover`. -/
def coverEntity : EntityInfo :=
  { names := ["garage door"], domain := "cover", attributes := ["current_position"],
    action := ["stop_cover", "open_cover", "close_cover"] }

/-- C4: for every entity of domain d and every list of action filters, the
action-matching operation accepts a supported action s exactly when, for some
filter a, s = a, or s = a ++ "_" ++ d, or s = d ++ "_" ++ a, and the result
holds the canonical resolved form s itself; in particular a cover entity
supporting "stop_cover" matched against the filter "stop" yields exactly
"stop_cover". -/
theorem c4_triform_action_heuristic :
    (∀ (entity : EntityInfo) (actions : List String) (s : String),
      s ∈ _match_actions entity actions ↔
        s ∈ entity.action ∧ ∃ a ∈ actions,
          s = a ∨ s = a ++ "_" ++ entity.domain ∨ s = entity.domain ++ "_" ++ a) ∧
    _match_actions coverEntity ["stop"] = ["stop_cover"] := by
  constructor
  · intro entity actions s
    unfold _match_actions
    rw [mem_match_actions_aux]
    simp
  · decide

/-! ## C10: rstrip removes every trailing letter s -/

theorem dropWhile_head_not {α : Type} (p : α → Bool) (l : List α) (x : α)
    (hx : (l.dropWhile p).head? = some x) : p x = false := by
  induction l with
  | nil => simp at hx
  | cons a l ih =>
    rw [List.dropWhile_cons] at hx
    by_cases ha : p a = true
    · rw [if_pos ha] at hx
      exact ih hx
    · rw [if_neg ha] at hx
      simp only [List.head?_cons, Option.some.injEq] at hx
      subst hx
      exact Bool.eq_false_iff.mpr ha

theorem pyRstrip_spec (s : String) :
    ∃ k, s.data = (pyRstrip s 's').data ++ List.replicate k 's' ∧
      (pyRstrip s 's').data.getLast? ≠ some 's' := by
  unfold pyRstrip
  simp only [String.data]
  refine ⟨(s.data.reverse.takeWhile (fun ch => ch == 's')).length, ?_, ?_⟩
  · have htake : s.data.reverse.takeWhile (fun ch => ch == 's') =
        List.replicate (s.data.reverse.takeWhile (fun ch => ch == 's')).length 's' := by
      apply List.eq_replicate_of_mem
      intro b hb
      have := List.mem_takeWhile_imp hb
      simpa using this
    have hsplit : s.data.reverse =
        s.data.reverse.takeWhile (fun ch => ch == 's') ++
          s.data.reverse.dropWhile (fun ch => ch == 's') :=
      (List.takeWhile_append_dropWhile (p := fun ch => ch == 's') (l := s.data.reverse)).symm
    conv_lhs => rw [← List.reverse_reverse s.data, hsplit]
    rw [List.reverse_append]
    conv_lhs => rw [htake]
    rw [List.reverse_replicate]
  · intro hlast
    rw [List.getLast?_reverse] at hlast
    have := dropWhile_head_not (fun ch => ch == 's') s.data.reverse 's' hlast
    simp at this

/-- C10: for every device name ending in the letter s, the singular candidate
added by device normalization is the name with ALL trailing s characters
removed (the remainder no longer ends in s), not only the last one; for the
input "glass" the added singular candidate is "gla", and multiple is set. -/
theorem c10_rstrip_all_trailing :
    (∀ s : String, pyEndswith s 's' = true →
      _extract_device (Val.str s) =
        Except.ok [("device", Val.list [s, pyRstrip s 's']), ("multiple", Val.bool true)]) ∧
    (∀ s : String, ∃ k, s.data = (pyRstrip s 's').data ++ List.replicate k 's' ∧
      (pyRstrip s 's').data.getLast? ≠ some 's') ∧
    _extract_device (Val.str "glass") =
      Except.ok [("device", Val.list ["glass", "gla"]), ("multiple", Val.bool true)] := by
  refine ⟨?_, pyRstrip_spec, by rfl⟩
  intro s hs
  have hne : s.data.isEmpty = false := by
    rw [List.isEmpty_eq_false_iff_exists_mem]
    rcases List.getLast?_eq_some_iff.mp (by simpa [pyEndswith] using hs) with ⟨l, hl⟩
    exact ⟨'s', by rw [hl]; simp⟩
  simp [_extract_device, hne, hs]

/-- Witness for C10 at the concrete input "glass". -/
theorem c10_witness :
    _extract_device (Val.str "glass") =
      Except.ok [("device", Val.list ["glass", "gla"]), ("multiple", Val.bool true)] :=
  c10_rstrip_all_trailing.1 "glass" (by decide)

/-! ## Membership characterization of the matcher -/

/-- An entity id survives both the candidate filter and the action gate of
the inner loop (hass_if.py lines 450-469). -/
def entityAccepted (h : Hass) (dev params acts : List String) (is_adjust : Bool)
    (entity_id : String) : Bool :=
  _entity_is_candidate h entity_id dev params acts &&
  (match entityById h entity_id with
   | Option.none => false
   | some entity => !(decide (acts ≠ [] ∧ _match_actions entity acts = [] ∧ is_adjust = false)))

theorem mem_matchStep_entities (h : Hass) (dev params acts : List String) (is_adjust : Bool)
    (area_id : String) (acc : MatchResult) (eid e : String) :
    e ∈ (matchStep h dev params acts is_adjust area_id acc eid).entities ↔
      e ∈ acc.entities ∨ (e = eid ∧ entityAccepted h dev params acts is_adjust eid = true) := by
  unfold matchStep entityAccepted
  cases hcand : _entity_is_candidate h eid dev params acts with
  | false => simp
  | true =>
    cases hent : entityById h eid with
    | none => simp
    | some entity =>
      by_cases hskip : acts ≠ [] ∧ _match_actions entity acts = [] ∧ is_adjust = false
      · simp [hskip]
      · simp [hskip, mem_sinsert]

theorem mem_entityFold (h : Hass) (dev params acts : List String) (is_adjust : Bool)
    (aid : String) (ids : List String) (acc : MatchResult) (e : String) :
    e ∈ (ids.foldl (matchStep h dev params acts is_adjust aid) acc).entities ↔
      e ∈ acc.entities ∨ (e ∈ ids ∧ entityAccepted h dev params acts is_adjust e = true) := by
  induction ids generalizing acc with
  | nil => simp
  | cons x xs ih =>
    rw [List.foldl_cons, ih, mem_matchStep_entities]
    simp only [List.mem_cons]
    constructor
    · rintro ((hacc | ⟨rfl, hx⟩) | ⟨hxs, he⟩)
      · exact Or.inl hacc
      · exact Or.inr ⟨Or.inl rfl, hx⟩
      · exact Or.inr ⟨Or.inr hxs, he⟩
    · rintro (hacc | ⟨(rfl | hxs), he⟩)
      · exact Or.inl (Or.inl hacc)
      · exact Or.inl (Or.inr ⟨rfl, he⟩)
      · exact Or.inr ⟨hxs, he⟩

theorem mem_areaFold (h : Hass) (dev params acts : List String) (is_adjust : Bool)
    (areas : List String) (acc : MatchResult) (e : String) :
    e ∈ (areas.foldl (areaStep h dev params acts is_adjust) acc).entities ↔
      e ∈ acc.entities ∨ ∃ aid ∈ areas, e ∈ _get_entities_by_area h aid ∧
        entityAccepted h dev params acts is_adjust e = true := by
  induction areas generalizing acc with
  | nil => simp
  | cons a as ih =>
    rw [List.foldl_cons, ih]
    rw [show areaStep h dev params acts is_adjust acc a =
      (_get_entities_by_area h a).foldl (matchStep h dev params acts is_adjust a) acc from rfl]
    rw [mem_entityFold]
    simp only [List.mem_cons]
    constructor
    · rintro ((hacc | ⟨hin, he⟩) | ⟨aid, hm, hin, he⟩)
      · exact Or.inl hacc
      · exact Or.inr ⟨a, Or.inl rfl, hin, he⟩
      · exact Or.inr ⟨aid, Or.inr hm, hin, he⟩
    · rintro (hacc | ⟨aid, (rfl | hm), hin, he⟩)
      · exact Or.inl (Or.inl hacc)
      · exact Or.inl (Or.inr ⟨hin, he⟩)
      · exact Or.inr ⟨aid, hm, hin, he⟩

/-- The matched entity set of `match_entities`, characterized: an entity id
is matched exactly when some candidate area contains it and it passes the
filters and the action gate. -/
theorem mem_match_entities (h : Hass) (slots : Slots) (e : String) :
    e ∈ (match_entities h slots).entities ↔
      ∃ aid ∈ candidateAreas h slots, e ∈ _get_entities_by_area h aid ∧
        entityAccepted h (asList slots.device) (slotParams slots) (slotActions slots)
          (slotIsAdjust slots) e = true := by
  unfold match_entities matchOverAreas
  rw [mem_areaFold]
  simp

/-! ## C3: an empty location slot considers every area -/

/-- C3: for every catalog and every ConstraintSet whose location slot is
falsy (None, empty string or empty collection), the candidate-area set of
match_entities is exactly the set of all area ids of the catalog, and
match_entities runs its search over exactly those candidate areas. -/
theorem c3_empty_location_considers_all_areas :
    ∀ (h : Hass) (slots : Slots), truthy slots.location = false →
      (∀ aid, aid ∈ candidateAreas h slots ↔ aid ∈ h.area_by_id.map Prod.fst) ∧
      match_entities h slots = matchOverAreas h slots (candidateAreas h slots) := by
  intro h slots hloc
  refine ⟨?_, rfl⟩
  intro aid
  unfold candidateAreas
  rw [if_pos hloc, mem_listToSet]

/-- The empty ConstraintSet: every slot unset. -/
def emptySlots : Slots :=
  { location := Val.none, device := Val.none, parameter := Val.none, action := Val.none,
    amount := Val.none, multiple := Val.none }

/-- A two-area catalog for exercising C3. -/
def c3Hass : Hass :=
  { entity_by_id := [],
    area_by_id := [("a1", { names := ["kitchen"], entity_ids := [] }),
                   ("a2", { names := ["den"], entity_ids := [] })],
    floor_by_id := [], area_by_name := [("kitchen", "a1"), ("den", "a2")],
    floor_by_name := [] }

/-- Witness for C3: on a concrete two-area catalog with the location slot
unset, both areas are candidate areas. -/
theorem c3_witness :
    ("a1" ∈ candidateAreas c3Hass emptySlots) ∧ ("a2" ∈ candidateAreas c3Hass emptySlots) :=
  ⟨((c3_empty_location_considers_all_areas c3Hass emptySlots (by decide)).1 "a1").mpr (by decide),
   ((c3_empty_location_considers_all_areas c3Hass emptySlots (by decide)).1 "a2").mpr (by decide)⟩

/-! ## C5: the plural device filter -/

theorem passes_mono (entity : EntityInfo) (dev1 dev2 params acts : List String)
    (hne : dev1 ≠ []) (hsub : ∀ x ∈ dev1, x ∈ dev2)
    (hc : entityPassesFilters entity dev1 params acts = true) :
    entityPassesFilters entity dev2 params acts = true := by
  unfold entityPassesFilters at hc ⊢
  by_cases h1d : dev1 ≠ [] ∧ (∀ n ∈ entity.names, n ∉ dev1) ∧ entity.domain ∉ dev1
  · rw [if_pos h1d] at hc
    exact absurd hc (by simp)
  · rw [if_neg h1d] at hc
    have h1 : ¬(dev2 ≠ [] ∧ (∀ n ∈ entity.names, n ∉ dev2) ∧ entity.domain ∉ dev2) := by
      intro h2
      exact h1d ⟨hne, fun n hn hm => h2.2.1 n hn (hsub _ hm), fun hm => h2.2.2 (hsub _ hm)⟩
    rw [if_neg h1]
    exact hc

theorem candidate_mono (h : Hass) (eid : String) (dev1 dev2 params acts : List String)
    (hne : dev1 ≠ []) (hsub : ∀ x ∈ dev1, x ∈ dev2)
    (hc : _entity_is_candidate h eid dev1 params acts = true) :
    _entity_is_candidate h eid dev2 params acts = true := by
  unfold _entity_is_candidate at hc ⊢
  cases hent : entityById h eid with
  | none => rw [hent] at hc; exact absurd hc (by simp)
  | some entity =>
    rw [hent] at hc
    exact passes_mono entity dev1 dev2 params acts hne hsub hc

theorem accepted_mono (h : Hass) (eid : String) (dev1 dev2 params acts : List String)
    (is_adjust : Bool) (hne : dev1 ≠ []) (hsub : ∀ x ∈ dev1, x ∈ dev2)
    (ha : entityAccepted h dev1 params acts is_adjust eid = true) :
    entityAccepted h dev2 params acts is_adjust eid = true := by
  unfold entityAccepted at ha ⊢
  rw [Bool.and_eq_true] at ha ⊢
  exact ⟨candidate_mono h eid dev1 dev2 params acts hne hsub ha.1, ha.2⟩

/-- C5 (amended): device normalization of the raw value "lights" keeps both
the original and the singular form as candidate filters and sets
multiple=true; for every catalog and ConstraintSet, matching with the
normalized filters ["lights", "light"] yields a SUPERSET of the device ids
matched with the filter ["light"] (equality can fail when an entity is
literally named "lights": see the counterexample). -/
theorem c5_plural_filter_superset :
    _extract_device (Val.str "lights") =
      Except.ok [("device", Val.list ["lights", "light"]), ("multiple", Val.bool true)] ∧
    ∀ (h : Hass) (slots : Slots) (e : String),
      e ∈ (match_entities h { slots with device := Val.list ["light"] }).entities →
      e ∈ (match_entities h { slots with device := Val.list ["lights", "light"] }).entities := by
  refine ⟨by rfl, ?_⟩
  intro h slots e he
  rw [mem_match_entities] at he ⊢
  obtain ⟨aid, h1, h2, h3⟩ := he
  refine ⟨aid, h1, h2, ?_⟩
  exact accepted_mono h e ["light"] ["lights", "light"] _ _ _ (by decide)
    (by intro x hx; simp only [List.mem_cons, List.not_mem_nil, or_false] at hx; simp [hx]) h3

/-- A desk lamp entity (domain "light") for exercising C5. -/
def c5wEntity : EntityInfo :=
  { names := ["desk lamp"], domain := "light", attributes := ["brightness"],
    action := ["turn_on", "turn_off"] }

/-- A one-entity catalog whose entity is a light for exercising C5. -/
def c5wHass : Hass :=
  { entity_by_id := [("e1", c5wEntity)],
    area_by_id := [("a1", { names := ["office"], entity_ids := ["e1"] })],
    floor_by_id := [], area_by_name := [("office", "a1")], floor_by_name := [] }

/-- Witness for C5 on a concrete catalog: the entity matched by ["light"] is
also matched by ["lights", "light"]. -/
theorem c5_witness :
    "e1" ∈ (match_entities c5wHass { emptySlots with device := Val.list ["lights", "light"] }).entities :=
  c5_plural_filter_superset.2 c5wHass emptySlots "e1" (by decide)

/-- An entity literally named "lights" (domain "switch") for the C5
counterexample. -/
def c5Entity : EntityInfo :=
  { names := ["lights"], domain := "switch", attributes := [], action := ["turn_on"] }

/-- A catalog with an entity literally named "lights". -/
def c5Hass : Hass :=
  { entity_by_id := [("e1", c5Entity)],
    area_by_id := [("a1", { names := ["office"], entity_ids := ["e1"] })],
    floor_by_id := [], area_by_name := [("office", "a1")], floor_by_name := [] }

/-- C5 counterexample: on a catalog with an entity literally named "lights",
the filters normalized from "lights" match it while the filter "light"
matches nothing, so the two device-id result sets differ and the claim as
stated (equality for every catalog) is false. -/
theorem c5_counterexample :
    (match_entities c5Hass { emptySlots with device := Val.list ["lights", "light"] }).entities = ["e1"] ∧
    (match_entities c5Hass { emptySlots with device := Val.list ["light"] }).entities = [] := by
  decide

/-! ## The Adjustment Engine (hass_if.py lines 490-626) -/

/-- A Python attribute value as the adjustment code distinguishes them:
numeric (`float`/`int`; a Python `bool` is an `int` and counts as numeric,
`True` being 1 and `False` 0), a string, or `None`. -/
inductive AttrVal where
  | num (q : ℚ)
  | str (s : String)
  | boolean (b : Bool)
  | null
  deriving DecidableEq, Repr

/-- One `core.State`: entity id, domain, state string, attributes dict. -/
structure DevState where
  entity_id : String
  domain : String
  state : String
  attributes : List (String × AttrVal)
  deriving DecidableEq, Repr

/-- `self._hass.states.get(did)`: look a state up by entity id. -/
def statesGet (states : List DevState) (did : String) : Option DevState :=
  states.find? (fun st => decide (st.entity_id = did))

/-- `state.attributes.get(parameter, None)` distinguished from key absence:
`some v` when the key is present with value `v`. -/
def attrGet (st : DevState) (parameter : String) : Option AttrVal :=
  dlookup st.attributes parameter

/-- homeassistant service-name constants imported at hass_if.py lines 15-30. -/
def SERVICE_SET_TEMPERATURE : String := "set_temperature"

def SERVICE_SET_HUMIDITY : String := "set_humidity"

def SERVICE_VOLUME_SET : String := "volume_set"

def SERVICE_TURN_ON : String := "turn_on"

def SERVICE_TURN_OFF : String := "turn_off"

/-- `PARAM_TO_SVC` (hass_if.py lines 528-534). -/
def PARAM_TO_SVC : List (String × String) :=
  [("temperature", SERVICE_SET_TEMPERATURE), ("humidity", SERVICE_SET_HUMIDITY),
   ("volume", SERVICE_VOLUME_SET)]

/-- The service call `_apply_abs_adjustment` dispatches
(`hass.services.async_call`, hass_if.py lines 543-549): domain, service
name, target entity, and the parameter entry of `service_data` when one was
added. -/
structure ServiceCall where
  domain : String
  service : String
  entity_id : String
  data : List (String × ℚ)
  deriving DecidableEq, Repr

/-- The `new_state` computation of `_apply_abs_adjustment`
(hass_if.py lines 503-519): threshold 1 when the device has the attribute,
20 otherwise; an off device with amount at or above the threshold turns on, an
on device with |amount| below the threshold turns off, anything else keeps
its state string. -/
def computeNewState (parameter : String) (amount : ℚ) (st : DevState) : String :=
  let threshold : ℚ := if (attrGet st parameter).isSome then 1 else 20
  let ns1 := if st.state = "off" ∧ amount ≥ threshold then "on" else st.state
  if st.state = "on" ∧ |amount| < threshold then "off" else ns1

/-- `HassIface._apply_abs_adjustment` (hass_if.py lines 490-549).  The local
`svc` is assigned only in the three branches of lines 536-541; when none
fires, the Python `async_call(..., service=svc, ...)` raises
`UnboundLocalError` instead of dispatching, which we model as the error
case. -/
def _apply_abs_adjustment (parameter : String) (amount : ℚ) (st : DevState) :
    Except String ServiceCall :=
  let service_data : List (String × ℚ) :=
    if (attrGet st parameter).isSome then [(parameter, amount)] else []
  let new_state := computeNewState parameter amount st
  match dlookup PARAM_TO_SVC parameter with
  | some svc =>
    Except.ok { domain := st.domain, service := svc, entity_id := st.entity_id,
                data := service_data }
  | Option.none =>
    if new_state = "on" then
      Except.ok { domain := st.domain, service := SERVICE_TURN_ON, entity_id := st.entity_id,
                  data := service_data }
    else if new_state = "off" then
      Except.ok { domain := st.domain, service := SERVICE_TURN_OFF, entity_id := st.entity_id,
                  data := service_data }
    else Except.error "UnboundLocalError: svc referenced before assignment"

/-- One delegation from the relative path to the absolute path
(`await self._apply_abs_adjustment(parameter, new_amount, state)`,
hass_if.py line 623), recorded as a trace event: the parameter, the computed
absolute amount and the device.  The absolute path's own behavior is modeled
separately by `_apply_abs_adjustment`. -/
structure AbsCall where
  parameter : String
  amount : ℚ
  entity_id : String
  deriving DecidableEq, Repr

/-- `HassIface.apply_rel_adjustment` (hass_if.py lines 580-626): per device,
a missing state raises ValueError; `attributes.get(parameter, None)` with a
`None` result (key absent or value None) is replaced by 0.0; a non-numeric
current value skips the device (`continue`); otherwise current + amount is
delegated to the absolute path and the device id is collected as a success.
Returns (success ids, delegated absolute calls). -/
def apply_rel_adjustment (states : List DevState) (device_ids : List String)
    (parameter : String) (amount : ℚ) : Except String (List String × List AbsCall) :=
  match device_ids with
  | [] => Except.ok ([], [])
  | did :: rest =>
    match statesGet states did with
    | Option.none => Except.error ("Entity " ++ did ++ " does not exist")
    | some st =>
      let current : AttrVal :=
        match attrGet st parameter with
        | Option.none => AttrVal.num 0
        | some AttrVal.null => AttrVal.num 0
        | some v => v
      match current with
      | AttrVal.num q =>
        (match apply_rel_adjustment states rest parameter amount with
         | Except.ok (succ, calls) =>
           Except.ok (did :: succ,
             { parameter := parameter, amount := q + amount, entity_id := did } :: calls)
         | Except.error e => Except.error e)
      | AttrVal.boolean b =>
        (match apply_rel_adjustment states rest parameter amount with
         | Except.ok (succ, calls) =>
           Except.ok (did :: succ,
             { parameter := parameter, amount := (if b then 1 else 0) + amount,
               entity_id := did } :: calls)
         | Except.error e => Except.error e)
      | _ => apply_rel_adjustment states rest parameter amount

/-! ## C1 and C8: the relative-adjustment path -/

/-- C1 (amended): for every device list processed by apply_rel_adjustment,
a device whose looked-up state exists behaves per its current attribute
value: a device LACKING the named attribute (or holding None there) is
logged but NOT skipped — it is treated as having current value 0.0 and is
delegated to the absolute path as 0 + amount, landing in the success list;
a numeric current value q is delegated as q + amount; a non-numeric (string)
current value causes only that device to be skipped while the remaining
devices in the list are still processed. -/
theorem c1_rel_adjustment_behavior :
    ∀ (states : List DevState) (did : String) (rest : List String) (parameter : String)
      (amount : ℚ) (st : DevState), statesGet states did = some st →
      ((attrGet st parameter = Option.none →
        apply_rel_adjustment states (did :: rest) parameter amount =
          (match apply_rel_adjustment states rest parameter amount with
           | Except.ok (succ, calls) => Except.ok (did :: succ,
               { parameter := parameter, amount := 0 + amount, entity_id := did } :: calls)
           | Except.error e => Except.error e)) ∧
       (∀ q, attrGet st parameter = some (AttrVal.num q) →
        apply_rel_adjustment states (did :: rest) parameter amount =
          (match apply_rel_adjustment states rest parameter amount with
           | Except.ok (succ, calls) => Except.ok (did :: succ,
               { parameter := parameter, amount := q + amount, entity_id := did } :: calls)
           | Except.error e => Except.error e)) ∧
       (∀ s, attrGet st parameter = some (AttrVal.str s) →
        apply_rel_adjustment states (did :: rest) parameter amount =
          apply_rel_adjustment states rest parameter amount)) := by
  intro states did rest parameter amount st hget
  refine ⟨?_, ?_, ?_⟩
  · intro h
    simp only [apply_rel_adjustment, hget, h]
  · intro q h
    simp only [apply_rel_adjustment, hget, h]
  · intro s h
    simp only [apply_rel_adjustment, hget, h]

/-- A state with no attributes at all for the C1 counterexample. -/
def c1State : DevState :=
  { entity_id := "d1", domain := "light", state := "on", attributes := [] }

/-- C1 counterexample: for a device lacking the named attribute, the claim
says the device is skipped; the code instead substitutes current value 0.0,
delegates 0 + amount to the absolute path and reports the device as a
success. -/
theorem c1_counterexample :
    apply_rel_adjustment [c1State] ["d1"] "brightness" (3/10) =
      Except.ok (["d1"], [{ parameter := "brightness", amount := 3/10, entity_id := "d1" }]) := by
  show (match apply_rel_adjustment [c1State] [] "brightness" (3/10) with
    | Except.ok (succ, calls) => Except.ok ("d1" :: succ,
        ({ parameter := "brightness", amount := 0 + 3/10, entity_id := "d1" } : AbsCall) :: calls)
    | Except.error e => Except.error e) = _
  norm_num [apply_rel_adjustment]

/-- A state with a numeric brightness for the C1 witness. -/
def c1wStateNum : DevState :=
  { entity_id := "d2", domain := "light", state := "on",
    attributes := [("brightness", AttrVal.num (1/2))] }

/-- A state with a non-numeric brightness for the C1 witness. -/
def c1wStateStr : DevState :=
  { entity_id := "d3", domain := "media_player", state := "on",
    attributes := [("brightness", AttrVal.str "bright")] }

/-- Witness for C1: d3 (non-numeric) is skipped while d2 (numeric) is still
processed and delegated as 1/2 + 1/4. -/
theorem c1_witness :
    apply_rel_adjustment [c1wStateNum, c1wStateStr] ["d3", "d2"] "brightness" (1/4) =
      Except.ok (["d2"], [{ parameter := "brightness", amount := 3/4, entity_id := "d2" }]) := by
  have h3 := (c1_rel_adjustment_behavior [c1wStateNum, c1wStateStr] "d3" ["d2"] "brightness"
    (1/4) c1wStateStr (by rfl)).2.2 "bright" (by rfl)
  rw [h3]
  have h2 := (c1_rel_adjustment_behavior [c1wStateNum, c1wStateStr] "d2" [] "brightness"
    (1/4) c1wStateNum (by rfl)).2.1 (1/2) (by rfl)
  rw [h2]
  norm_num [apply_rel_adjustment]

/-- C8: a relative adjustment of +0.3 on a device whose named attribute
currently holds the numeric value 0.6 delegates the absolute value 0.9 to
the absolute-adjustment path for that device (and reports it a success). -/
theorem c8_relative_point_three_on_point_six :
    ∀ (states : List DevState) (did parameter : String) (st : DevState),
      statesGet states did = some st →
      attrGet st parameter = some (AttrVal.num (6/10)) →
      apply_rel_adjustment states [did] parameter (3/10) =
        Except.ok ([did], [{ parameter := parameter, amount := 9/10, entity_id := did }]) := by
  intro states did parameter st hget hattr
  simp only [apply_rel_adjustment, hget, hattr]
  norm_num

/-- A climate state at temperature 0.6 for the C8 witness. -/
def c8State : DevState :=
  { entity_id := "d1", domain := "climate", state := "on",
    attributes := [("temperature", AttrVal.num (6/10))] }

/-- Witness for C8 at a concrete state holding 0.6. -/
theorem c8_witness :
    apply_rel_adjustment [c8State] ["d1"] "temperature" (3/10) =
      Except.ok (["d1"], [{ parameter := "temperature", amount := 9/10, entity_id := "d1" }]) :=
  c8_relative_point_three_on_point_six [c8State] "d1" "temperature" c8State
    (by rfl) (by rfl)

/-! ## C9: the absolute path's service variable can stay unassigned -/

theorem param_to_svc_mem (p : String) :
    (dlookup PARAM_TO_SVC p).isSome = true ↔ p ∈ ["temperature", "humidity", "volume"] := by
  simp only [PARAM_TO_SVC, dlookup, List.mem_cons, List.not_mem_nil, or_false]
  split_ifs with h1 h2 h3 <;> simp_all [eq_comm]

/-- C9: in the absolute-adjustment helper, a dispatch happens exactly when
the parameter is one of temperature, humidity, volume or the computed new
state is "on" or "off"; for every device whose current state is neither
"on" nor "off" and whose parameter is not one of those three, the helper
reaches the service call with `svc` unassigned and fails
(UnboundLocalError) instead of dispatching a command. -/
theorem c9_abs_service_only_three_or_onoff :
    ∀ (parameter : String) (amount : ℚ) (st : DevState),
      ((∃ c, _apply_abs_adjustment parameter amount st = Except.ok c) ↔
        (parameter ∈ ["temperature", "humidity", "volume"] ∨
          computeNewState parameter amount st = "on" ∨
          computeNewState parameter amount st = "off")) ∧
      (st.state ≠ "on" → st.state ≠ "off" →
        parameter ∉ ["temperature", "humidity", "volume"] →
        _apply_abs_adjustment parameter amount st =
          Except.error "UnboundLocalError: svc referenced before assignment") := by
  intro parameter amount st
  have hnewstate : st.state ≠ "on" → st.state ≠ "off" →
      computeNewState parameter amount st = st.state := by
    intro h1 h2
    unfold computeNewState
    rw [if_neg (fun hc => h1 hc.1), if_neg (fun hc => h2 hc.1)]
  constructor
  · unfold _apply_abs_adjustment
    cases hl : dlookup PARAM_TO_SVC parameter with
    | some svc =>
      have hp : parameter ∈ ["temperature", "humidity", "volume"] :=
        (param_to_svc_mem parameter).mp (by rw [hl]; rfl)
      simp [hp]
    | none =>
      have hp : parameter ∉ ["temperature", "humidity", "volume"] := by
        intro hmem
        have := (param_to_svc_mem parameter).mpr hmem
        rw [hl] at this
        exact absurd this (by simp)
      by_cases hon : computeNewState parameter amount st = "on"
      · simp [hon]
      · by_cases hoff : computeNewState parameter amount st = "off"
        · simp [hon, hoff]
        · simp [hon, hoff, hp]
  · intro h1 h2 h3
    have hnone : dlookup PARAM_TO_SVC parameter = Option.none := by
      cases hl : dlookup PARAM_TO_SVC parameter with
      | some svc =>
        exact absurd ((param_to_svc_mem parameter).mp (by rw [hl]; rfl)) h3
      | none => rfl
    unfold _apply_abs_adjustment
    rw [hnone, hnewstate h1 h2]
    simp [h1, h2]

/-- An unavailable light for the C9 witness. -/
def c9State : DevState :=
  { entity_id := "d1", domain := "light", state := "unavailable", attributes := [] }

/-- Witness for C9: brightness on an unavailable device fails instead of
dispatching. -/
theorem c9_witness :
    _apply_abs_adjustment "brightness" 5 c9State =
      Except.error "UnboundLocalError: svc referenced before assignment" :=
  (c9_abs_service_only_three_or_onoff "brightness" 5 c9State).2
    (by decide) (by decide) (by decide)

/-! ## C2: the reverse name map (hass_if.py lines 204-223) -/

/-- Register one record of `_reverse_map`: pop its `names` and, for each
name in order, warn when the name is already a key of the result
(`_LOGGER.warning`, recorded in the second component) and then write
`result[name] = val` — an unconditional dict write, so an existing entry is
OVERWRITTEN.  The value dict of the source carries the remaining payload
plus `val["id"] = k`; only the identity of the mapped record matters here,
so we store the id `k` itself. -/
def registerRecord (acc : List (String × String) × List String) (rec : String × List String) :
    List (String × String) × List String :=
  rec.2.foldl
    (fun dw name =>
      (dictInsert dw.1 name rec.1,
       if (dlookup dw.1 name).isSome then dw.2 ++ [name] else dw.2))
    acc

/-- `_reverse_map` (hass_if.py lines 204-223) over `(id, names)` records:
the resulting name → id dict, together with the list of collision warnings
logged. -/
def _reverse_map (m : List (String × List String)) : List (String × String) × List String :=
  m.foldl registerRecord ([], [])

/-- The record the source leaves in the dict for a name: the LAST record of
the iteration whose names contain it. -/
def lastIdFor (m : List (String × List String)) (n : String) : Option String :=
  ((m.filter (fun r => decide (n ∈ r.2))).getLast?).map Prod.fst

theorem dlookup_dictInsert {α : Type} (d : List (String × α)) (k : String) (v : α)
    (key : String) :
    dlookup (dictInsert d k v) key = if key = k then some v else dlookup d key := by
  induction d with
  | nil =>
    show dlookup [(k, v)] key = _
    rcases eq_or_ne key k with rfl | h
    · simp [dlookup]
    · simp [dlookup, h, Ne.symm h]
  | cons p rest ih =>
    obtain ⟨k0, v0⟩ := p
    show dlookup (if k0 = k then (k, v) :: rest else (k0, v0) :: dictInsert rest k v) key = _
    by_cases h0 : k0 = k
    · subst h0
      rcases eq_or_ne key k0 with rfl | h
      · simp [dlookup]
      · simp [dlookup, h, Ne.symm h]
    · rw [if_neg h0]
      rcases eq_or_ne key k0 with rfl | h
      · simp [dlookup, h0]
      · simp [dlookup, Ne.symm h, ih]

theorem dlookup_eq_none_iff {α : Type} (d : List (String × α)) (k : String) :
    dlookup d k = Option.none ↔ k ∉ d.map Prod.fst := by
  induction d with
  | nil => simp [dlookup]
  | cons p rest ih =>
    obtain ⟨k0, v0⟩ := p
    rcases eq_or_ne k0 k with rfl | h
    · simp [dlookup]
    · simp [dlookup, h, Ne.symm h, ih]

theorem keys_dictInsert {α : Type} (d : List (String × α)) (k : String) (v : α) :
    (dictInsert d k v).map Prod.fst =
      if (dlookup d k).isSome then d.map Prod.fst else d.map Prod.fst ++ [k] := by
  induction d with
  | nil => simp [dictInsert, dlookup]
  | cons p rest ih =>
    obtain ⟨k0, v0⟩ := p
    show ((if k0 = k then (k, v) :: rest else (k0, v0) :: dictInsert rest k v)).map Prod.fst = _
    by_cases h0 : k0 = k
    · subst h0
      simp [dlookup]
    · simp only [if_neg h0, List.map_cons, dlookup, ih]
      by_cases hrest : (dlookup rest k).isSome
      · simp [h0, hrest]
      · simp [h0, hrest]

theorem nodup_keys_dictInsert {α : Type} (d : List (String × α)) (k : String) (v : α)
    (hd : (d.map Prod.fst).Nodup) : ((dictInsert d k v).map Prod.fst).Nodup := by
  rw [keys_dictInsert]
  by_cases h : (dlookup d k).isSome
  · simpa [h] using hd
  · have hk : k ∉ d.map Prod.fst := by
      rw [← dlookup_eq_none_iff]
      exact Option.not_isSome_iff_eq_none.mp h
    simp [h, List.nodup_append, hd, hk]

theorem dlookup_registerRecord (acc : List (String × String) × List String) (id : String)
    (names : List String) (n : String) :
    dlookup (registerRecord acc (id, names)).1 n =
      if n ∈ names then some id else dlookup acc.1 n := by
  induction names generalizing acc with
  | nil => simp [registerRecord]
  | cons x xs ih =>
    show dlookup (registerRecord (dictInsert acc.1 x id,
      if (dlookup acc.1 x).isSome then acc.2 ++ [x] else acc.2) (id, xs)).1 n = _
    rw [ih]
    simp only [dlookup_dictInsert, List.mem_cons]
    by_cases hxs : n ∈ xs
    · simp [hxs]
    · by_cases hx : n = x
      · simp [hx, hxs]
      · simp [hx, hxs]

theorem nodup_keys_registerRecord (acc : List (String × String) × List String)
    (rec : String × List String) (hd : (acc.1.map Prod.fst).Nodup) :
    (((registerRecord acc rec).1).map Prod.fst).Nodup := by
  obtain ⟨id, names⟩ := rec
  induction names generalizing acc with
  | nil => simpa [registerRecord] using hd
  | cons x xs ih =>
    show ((registerRecord (dictInsert acc.1 x id,
      if (dlookup acc.1 x).isSome then acc.2 ++ [x] else acc.2) (id, xs)).1.map Prod.fst).Nodup
    exact ih _ (nodup_keys_dictInsert acc.1 x id hd)

theorem warnings_registerRecord_mono (acc : List (String × String) × List String)
    (rec : String × List String) (n : String) (hn : n ∈ acc.2) :
    n ∈ (registerRecord acc rec).2 := by
  obtain ⟨id, names⟩ := rec
  induction names generalizing acc with
  | nil => simpa [registerRecord] using hn
  | cons x xs ih =>
    show n ∈ (registerRecord (dictInsert acc.1 x id,
      if (dlookup acc.1 x).isSome then acc.2 ++ [x] else acc.2) (id, xs)).2
    apply ih
    by_cases hx : (dlookup acc.1 x).isSome
    · simp [hx, hn]
    · simp [hx, hn]

theorem warn_registerRecord (acc : List (String × String) × List String) (id : String)
    (names : List String) (n : String) (hpres : (dlookup acc.1 n).isSome = true)
    (hmem : n ∈ names) : n ∈ (registerRecord acc (id, names)).2 := by
  induction names generalizing acc with
  | nil => simp at hmem
  | cons x xs ih =>
    show n ∈ (registerRecord (dictInsert acc.1 x id,
      if (dlookup acc.1 x).isSome then acc.2 ++ [x] else acc.2) (id, xs)).2
    rcases List.mem_cons.mp hmem with rfl | hxs
    · rw [if_pos hpres]
      exact warnings_registerRecord_mono _ (id, xs) n (by simp)
    · have hpres2 : (dlookup (dictInsert acc.1 x id) n).isSome = true := by
        rw [dlookup_dictInsert]
        by_cases hn : n = x
        · simp [hn]
        · simpa [hn] using hpres
      exact ih _ hpres2 hxs

theorem lastIdFor_cons (r : String × List String) (rest : List (String × List String))
    (n : String) :
    lastIdFor (r :: rest) n =
      (match lastIdFor rest n with
       | some i => some i
       | Option.none => if n ∈ r.2 then some r.1 else Option.none) := by
  unfold lastIdFor
  rw [List.filter_cons]
  by_cases h : n ∈ r.2
  · rw [if_pos (by simpa using h)]
    rw [List.getLast?_cons]
    cases hl : (rest.filter (fun r => decide (n ∈ r.2))).getLast? with
    | none => simp [hl, h]
    | some x => simp [hl]
  · rw [if_neg (by simpa using h)]
    cases hl : (rest.filter (fun r => decide (n ∈ r.2))).getLast? with
    | none => simp [hl, h]
    | some x => simp [hl]

theorem dlookup_reverse_fold (m : List (String × List String))
    (acc : List (String × String) × List String) (n : String) :
    dlookup (m.foldl registerRecord acc).1 n =
      (match lastIdFor m n with
       | some i => some i
       | Option.none => dlookup acc.1 n) := by
  induction m generalizing acc with
  | nil => simp [lastIdFor]
  | cons r rest ih =>
    rw [List.foldl_cons, ih, lastIdFor_cons]
    obtain ⟨id, names⟩ := r
    cases hl : lastIdFor rest n with
    | some i => rfl
    | none =>
      simp only [dlookup_registerRecord]
      by_cases h : n ∈ names
      · simp [h]
      · simp [h]

theorem nodup_keys_reverse_fold (m : List (String × List String))
    (acc : List (String × String) × List String) (hd : (acc.1.map Prod.fst).Nodup) :
    ((m.foldl registerRecord acc).1.map Prod.fst).Nodup := by
  induction m generalizing acc with
  | nil => simpa using hd
  | cons r rest ih =>
    rw [List.foldl_cons]
    exact ih _ (nodup_keys_registerRecord acc r hd)

theorem warnings_reverse_fold_mono (m : List (String × List String))
    (acc : List (String × String) × List String) (n : String) (hn : n ∈ acc.2) :
    n ∈ (m.foldl registerRecord acc).2 := by
  induction m generalizing acc with
  | nil => simpa using hn
  | cons r rest ih =>
    rw [List.foldl_cons]
    exact ih _ (warnings_registerRecord_mono acc r n hn)

theorem presence_reverse_fold (m : List (String × List String))
    (acc : List (String × String) × List String) (n : String)
    (hpres : (dlookup acc.1 n).isSome = true) :
    (dlookup ((m.foldl registerRecord acc).1) n).isSome = true := by
  rw [dlookup_reverse_fold]
  cases hl : lastIdFor m n with
  | some i => rfl
  | none => simpa using hpres

/-- C2 (amended): reverse-indexing reports every collision (a name
registered while already present in the index, in particular a name
pointing to a different earlier record) and does not crash, but it does NOT
keep the existing mapping: the dict write is unconditional, so the name
ends up mapped to the LAST record registering it; the resulting index still
has exactly one entry per name. -/
theorem c2_reverse_map_last_writer_wins :
    ∀ (m : List (String × List String)) (n : String),
      dlookup (_reverse_map m).1 n = lastIdFor m n ∧
      ((_reverse_map m).1.map Prod.fst).Nodup ∧
      (∀ (pre mid post : List (String × List String)) (r1 r2 : String × List String),
        m = pre ++ r1 :: mid ++ r2 :: post → n ∈ r1.2 → n ∈ r2.2 →
        n ∈ (_reverse_map m).2) := by
  intro m n
  refine ⟨?_, ?_, ?_⟩
  · rw [_reverse_map, dlookup_reverse_fold]
    cases hl : lastIdFor m n with
    | some i => rfl
    | none => rfl
  · exact nodup_keys_reverse_fold m ([], []) (by simp)
  · intro pre mid post r1 r2 hm h1 h2
    subst hm
    rw [_reverse_map, List.foldl_append, List.foldl_cons, List.foldl_append, List.foldl_cons]
    apply warnings_reverse_fold_mono
    obtain ⟨id2, names2⟩ := r2
    apply warn_registerRecord _ id2 names2 n _ h2
    apply presence_reverse_fold
    obtain ⟨id1, names1⟩ := r1
    rw [dlookup_registerRecord, if_pos h1]
    rfl

/-- C2 counterexample: after registering name "x" for k1 and then for k2,
the index maps "x" to k2 — the existing mapping is NOT kept (though the
collision is logged and one entry per name remains). -/
theorem c2_counterexample :
    dlookup (_reverse_map [("k1", ["x"]), ("k2", ["x"])]).1 "x" = some "k2" ∧
    some "k2" ≠ some "k1" ∧
    "x" ∈ (_reverse_map [("k1", ["x"]), ("k2", ["x"])]).2 := by
  refine ⟨by rfl, by simp, by decide⟩

/-- Witness for C2 on a concrete two-record collision. -/
theorem c2_witness :
    dlookup (_reverse_map [("k1", ["x"]), ("k2", ["x", "y"])]).1 "x" =
      lastIdFor [("k1", ["x"]), ("k2", ["x", "y"])] "x" ∧
    "x" ∈ (_reverse_map [("k1", ["x"]), ("k2", ["x", "y"])]).2 :=
  ⟨(c2_reverse_map_last_writer_wins [("k1", ["x"]), ("k2", ["x", "y"])] "x").1,
   (c2_reverse_map_last_writer_wins [("k1", ["x"]), ("k2", ["x", "y"])] "x").2.2
     [] [] [] ("k1", ["x"]) ("k2", ["x", "y"]) (by rfl) (by decide) (by decide)⟩

/-! ## C6: amount parsing (actions.py lines 502-531) -/

/-- Python `str.split(" ")`: split at EVERY single space, keeping empty
pieces between consecutive spaces. -/
def splitSpaceAux : List Char → List Char → List String
  | [], cur => [String.mk cur.reverse]
  | c :: rest, cur =>
    if c = ' ' then String.mk cur.reverse :: splitSpaceAux rest []
    else splitSpaceAux rest (c :: cur)

def pySplitSpace (s : String) : List String := splitSpaceAux s.data []

/-- The numeric value of a digit string. -/
def digitsVal (ds : List Char) : ℕ :=
  ds.foldl (fun acc c => 10 * acc + (c.toNat - Char.toNat '0')) 0

/-- Models Python `float(word)` on plain decimal literals: optional sign,
integer digits, optional "." and fraction digits, at least one digit in
total.  Exponents, inf/nan and underscores are treated as unparseable, like
every other non-numeric token. -/
def parseFloat (s : String) : Option ℚ :=
  let cs := s.data
  let sign : ℚ := if cs.head? = some '-' then -1 else 1
  let rest := if cs.head? = some '-' ∨ cs.head? = some '+' then cs.tail else cs
  let intPart := rest.takeWhile Char.isDigit
  let rest2 := rest.dropWhile Char.isDigit
  if rest2 = [] then
    if intPart = [] then Option.none
    else some (sign * (digitsVal intPart : ℚ))
  else if rest2.head? = some '.' ∧ rest2.tail.all Char.isDigit = true ∧
      (intPart ≠ [] ∨ rest2.tail ≠ []) then
    some (sign * ((digitsVal intPart : ℚ) +
      (digitsVal rest2.tail : ℚ) / (10 : ℚ) ^ rest2.tail.length))
  else Option.none

/-- The running state of `_extract_amount`: the `ret` dict (its `amount`
entry and its optional `action` entry). The multiplier `mult` is carried
alongside. -/
structure AmountOut where
  amount : Val
  action : Option String
  deriving DecidableEq, Repr

/-- One loop iteration of `_extract_amount` (actions.py lines 513-523):
"percent" sets the multiplier to 0.01; a parseable token becomes the
amount, implicitly setting action "set_absolute" only when the incoming
action slot is None; anything else is ignored. -/
def amountStep (action : Val) (st : AmountOut × ℚ) (word : String) : AmountOut × ℚ :=
  if word = "percent" then (st.1, 1/100)
  else
    match parseFloat word with
    | some v =>
      ({ amount := Val.num v,
         action := if action = Val.none then some "set_absolute" else st.1.action }, st.2)
    | Option.none => st

/-- `DeviceAmountForm._extract_amount` (actions.py lines 502-531): start
from `ret = {"amount": candidate}` and `mult = 1.0`, loop over the
space-split words when the candidate is a string, then multiply a numeric
amount by the multiplier.  Returns the slot-update dict (`amount` always,
`action` when implicitly set). -/
def extractAmountStr (s : String) (action : Val) : List (String × Val) :=
  let res := (pySplitSpace s).foldl (amountStep action)
    ({ amount := Val.str s, action := Option.none }, 1)
  let finalAmount : Val :=
    match res.1.amount with
    | Val.num v => Val.num (v * res.2)
    | other => other
  [("amount", finalAmount)] ++
    (match res.1.action with
     | some a => [("action", Val.str a)]
     | Option.none => [])

def _extract_amount (candidate : Val) (action : Val) : List (String × Val) :=
  match candidate with
  | Val.str s => extractAmountStr s action
  | other =>
    [("amount", (match other with
      | Val.num v => Val.num (v * 1)
      | o => o))]

theorem amountFold_spec (action : Val) (ws : List String) (a0 : Val) (ac0 : Option String)
    (m0 : ℚ) :
    ws.foldl (amountStep action) ({ amount := a0, action := ac0 }, m0) =
      ({ amount := (match (ws.filterMap parseFloat).getLast? with
           | some v => Val.num v
           | Option.none => a0),
         action := (if action = Val.none ∧ ws.filterMap parseFloat ≠ [] then
           some "set_absolute" else ac0) },
       if "percent" ∈ ws then 1/100 else m0) := by
  induction ws generalizing a0 ac0 m0 with
  | nil => simp
  | cons w ws ih =>
    rw [List.foldl_cons]
    by_cases hw : w = "percent"
    · subst hw
      have hpf : parseFloat "percent" = Option.none := by rfl
      rw [show amountStep action ({ amount := a0, action := ac0 }, m0) "percent" =
        ({ amount := a0, action := ac0 }, 1/100) from by simp [amountStep]]
      rw [ih]
      rw [List.filterMap_cons, hpf]
      simp
    · cases hpf : parseFloat w with
      | none =>
        rw [show amountStep action ({ amount := a0, action := ac0 }, m0) w =
          ({ amount := a0, action := ac0 }, m0) from by simp [amountStep, hw, hpf]]
        rw [ih]
        rw [List.filterMap_cons, hpf]
        simp [hw, Ne.symm hw]
      | some v =>
        rw [show amountStep action ({ amount := a0, action := ac0 }, m0) w =
          ({ amount := Val.num v,
             action := if action = Val.none then some "set_absolute" else ac0 }, m0) from by
          simp [amountStep, hw, hpf]]
        rw [ih]
        rw [List.filterMap_cons, hpf]
        simp only [List.mem_cons, hw, false_or]
        cases hl : (ws.filterMap parseFloat).getLast? with
        | none =>
          have hnil : ws.filterMap parseFloat = [] := List.getLast?_eq_none_iff.mp hl
          by_cases ha : action = Val.none
          · simp [hnil, ha, Ne.symm hw]
          · simp [hnil, ha, Ne.symm hw]
        | some x =>
          have hne : ws.filterMap parseFloat ≠ [] := by
            intro hcon
            rw [hcon] at hl
            simp at hl
          by_cases ha : action = Val.none
          · simp [List.getLast?_cons, hl, hne, ha, Ne.symm hw]
          · simp [List.getLast?_cons, hl, hne, ha, Ne.symm hw]

/-- C6: amount parsing splits the raw string on spaces; a token "percent"
sets a 0.01 multiplier (otherwise the multiplier is 1); when at least one
token parses as a number, the last such value v becomes the numeric amount
and the final amount equals v times the multiplier; the action slot is
implicitly set to "set_absolute" exactly when the incoming action slot was
unset (None), and no action update is emitted when an action was already
set. -/
theorem c6_amount_parsing :
    ∀ (s : String) (action : Val) (v : ℚ),
      ((pySplitSpace s).filterMap parseFloat).getLast? = some v →
      _extract_amount (Val.str s) action =
        [("amount", Val.num (v * (if "percent" ∈ pySplitSpace s then 1/100 else 1)))] ++
        (if action = Val.none then [("action", Val.str "set_absolute")] else []) := by
  intro s action v hv
  show extractAmountStr s action = _
  simp only [extractAmountStr]
  rw [amountFold_spec, hv]
  have hne : (pySplitSpace s).filterMap parseFloat ≠ [] := by
    intro h
    rw [h] at hv
    simp at hv
  by_cases ha : action = Val.none
  · simp [ha, hne]
  · simp [ha, hne]

/-- Witness for C6 at the concrete raw amount "50 percent" with no action
set: the amount becomes 0.5 and the action is implicitly set_absolute. -/
theorem c6_witness :
    _extract_amount (Val.str "50 percent") Val.none =
      [("amount", Val.num (1/2)), ("action", Val.str "set_absolute")] := by
  have hsplit : pySplitSpace "50 percent" = ["50", "percent"] := by decide
  have h50 : parseFloat "50" = some 50 := by
    have h1 : parseFloat "50" = some ((1 : ℚ) * ((digitsVal ['5', '0'] : ℕ) : ℚ)) := by rfl
    have h2 : digitsVal ['5', '0'] = 50 := by decide
    rw [h1, h2]
    norm_num
  have hpercent : parseFloat "percent" = Option.none := by rfl
  have hyp : ((pySplitSpace "50 percent").filterMap parseFloat).getLast? = some 50 := by
    rw [hsplit]
    simp [List.filterMap_cons, h50, hpercent]
  rw [c6_amount_parsing "50 percent" Val.none 50 hyp, hsplit]
  norm_num

/-! ## The slot-filling forms (actions.py): DeviceLocationForm.run and
DeviceAmountForm.run -/

/-- The two kinds of Python exception the embedded form code can raise:
the caught `UnknownName` (actions.py line 45, caught at lines 210-213 /
396-399) and an uncaught TypeError/AttributeError-style crash. -/
inductive PyErr where
  | unknownName (msg : String)
  | typeError (msg : String)
  deriving DecidableEq, Repr

/-- The rasa_sdk events a form run returns: `BotUttered`, `AllSlotsReset`,
`SlotSet(key, value)` and `ActiveLoop(name)`. -/
inductive Event where
  | botUttered (text : String)
  | allSlotsReset
  | slotSet (key : String) (value : Val)
  | activeLoop (name : Option String)
  deriving DecidableEq, Repr

/-- rasa_sdk's REQUESTED_SLOT constant. -/
def REQUESTED_SLOT : String := "requested_slot"

/-- Python `str.lower()`. -/
def pyLower (s : String) : String := String.mk (s.data.map Char.toLower)

/-- Lowercase string slot values, pass others through
(`get_slots_from_tracker`, actions.py lines 108-121). -/
def lowerVal : Val → Val
  | Val.str s => Val.str (pyLower s)
  | v => v

def get_slots_from_tracker (tracker : Slots) : Slots :=
  { location := lowerVal tracker.location, device := lowerVal tracker.device,
    parameter := lowerVal tracker.parameter, action := lowerVal tracker.action,
    amount := lowerVal tracker.amount, multiple := lowerVal tracker.multiple }

/-- Write one key of a slot dict (`current_slots.update`); the embedded
forms only ever write the six known slot keys. -/
def setSlot (cs : Slots) (key : String) (v : Val) : Slots :=
  if key = "location" then { cs with location := v }
  else if key = "device" then { cs with device := v }
  else if key = "parameter" then { cs with parameter := v }
  else if key = "action" then { cs with action := v }
  else if key = "amount" then { cs with amount := v }
  else if key = "multiple" then { cs with multiple := v }
  else cs

def applySlots (cs : Slots) (upd : List (String × Val)) : Slots :=
  upd.foldl (fun c p => setSlot c p.1 p.2) cs

/-- `HassIface.find_location_by_name` (hass_if.py lines 366-375): both the
area id and the floor id when the name matches both tiers. -/
def find_location_by_name (h : Hass) (loc : String) : List String :=
  (match dlookup h.area_by_name loc with
   | some aid => [aid]
   | Option.none => []) ++
  (match dlookup h.floor_by_name loc with
   | some fid => [fid]
   | Option.none => [])

/-- `DeviceLocationForm.validate_location` (actions.py lines 87-106):
sentinel "any"/"all"/"each" sets multiple and clears location (empty
string); otherwise resolve via the name index or raise UnknownName.  The
source message contains an apostrophe; the wording here is equivalent. -/
def validate_location (h : Hass) (candidate : String) : Except PyErr (List (String × Val)) :=
  if candidate = "any" ∨ candidate = "all" ∨ candidate = "each" then
    Except.ok [("multiple", Val.bool true), ("location", Val.str "")]
  else
    let loc_ids := find_location_by_name h candidate
    if loc_ids ≠ [] then Except.ok [("location", Val.list loc_ids)]
    else Except.error (PyErr.unknownName ("Sorry, I do not know the location " ++ candidate))

/-- `DeviceLocationForm._extract_location` (actions.py lines 123-131): a
falsy candidate updates nothing; a truthy non-string would crash the dict
lookups inside `find_location_by_name` (unhashable key). -/
def _extract_location (h : Hass) (candidate : Val) : Except PyErr (List (String × Val)) :=
  if truthy candidate = false then Except.ok []
  else match candidate with
    | Val.str s => validate_location h s
    | _ => Except.error (PyErr.typeError "unhashable location value")

/-- `DeviceAmountForm.ACTION_DICT` (actions.py lines 348-356):
text → (action, amount). -/
def ACTION_DICT : List (String × (String × Option ℚ)) :=
  [("turn_up", ("set_relative", some 25)), ("turn_down", ("set_relative", some 25)),
   ("increase", ("set_relative", some 25)), ("decrease", ("set_relative", some 25)),
   ("set", ("set_absolute", some 0))]

/-- Python `str.replace(c, d)` for one-character patterns. -/
def pyReplaceChar (s : String) (c d : Char) : String :=
  String.mk (s.data.map (fun ch => if ch = c then d else ch))

/-- `DeviceAmountForm._extract_action` (actions.py lines 358-374): snake-case
the phrase; a known phrase is replaced by its canonical action from
ACTION_DICT (whose amount entry is written back only when it is None, which
no entry is); the `amount` parameter of the source is shadowed before use
and therefore omitted.  A truthy non-string would crash `.replace`. -/
def _extract_action (candidate : Val) : Except PyErr (List (String × Val)) :=
  if truthy candidate = false then Except.ok []
  else match candidate with
    | Val.str s =>
      let action := pyReplaceChar s ' ' '_'
      match dlookup ACTION_DICT action with
      | some (act2, amt2) =>
        Except.ok ((if amt2 = Option.none then [("amount", Val.none)] else []) ++
          [("action", Val.str act2)])
      | Option.none => Except.ok [("action", Val.str action)]
    | _ => Except.error (PyErr.typeError "action is not a string")

/-- `_get_if_single` (actions.py lines 56-61): write the slot only when
exactly one element was found. -/
def _get_if_single (slots : List (String × Val)) (elements : List String) (name : String) :
    List (String × Val) :=
  match elements with
  | [e] => dictInsert slots name (Val.str e)
  | _ => slots

/-- `_english_list` (actions.py lines 64-77). -/
def _english_list (objs : List String) (j : String) : String :=
  match objs with
  | [] => ""
  | [a] => a
  | [a, b] => a ++ " " ++ j ++ " " ++ b
  | _ => String.intercalate ", " objs.dropLast ++ ", " ++ j ++ " " ++ objs.getLastD ""

/-- The `alt_slots` built by `_find_alt` (actions.py lines 159-160): keep
the non-excluded slots, set every excluded slot to an empty dict (falsy,
and coerced to the empty filter list by the matcher). -/
def excludeSlots (cs : Slots) (exclude : List String) : Slots :=
  { location := if "location" ∈ exclude then Val.list [] else cs.location,
    device := if "device" ∈ exclude then Val.list [] else cs.device,
    parameter := if "parameter" ∈ exclude then Val.list [] else cs.parameter,
    action := if "action" ∈ exclude then Val.list [] else cs.action,
    amount := if "amount" ∈ exclude then Val.list [] else cs.amount,
    multiple := if "multiple" ∈ exclude then Val.list [] else cs.multiple }

/-- `DeviceLocationForm._find_alt` (actions.py lines 152-191). -/
def _find_alt (h : Hass) (cs : Slots) (exclude : List String) : Option String :=
  let alt := excludeSlots cs exclude
  let mr := match_entities h alt
  if mr.entities = [] then Option.none
  else
    let descr : List String :=
      (if "device" ∉ exclude ∧ truthy cs.device then
        ["called " ++ _english_list (asList cs.device) "or"] else []) ++
      (if "location" ∈ exclude ∧ truthy cs.location then
        ["in " ++ _english_list mr.areas "and"] else []) ++
      (if "action" ∈ exclude ∧ truthy cs.action then
        [if mr.actions ≠ [] then "that can " ++ _english_list mr.actions "or"
         else "with no actions"] else []) ++
      (if "parameter" ∈ exclude ∧ truthy cs.parameter then
        [if mr.attributes ≠ [] then "with a " ++ _english_list mr.attributes "and"
         else "with no parameters"] else [])
    let n := mr.entities.length
    let d := String.intercalate " " descr
    some (s!"However I did find {n} devices {d}")

/-- `DeviceLocationForm._next_slot` (actions.py lines 305-333). -/
def _next_slot_dl (cs : Slots) : Option String :=
  let device_count : ℕ :=
    match cs.device with
    | Val.list l => l.length
    | Val.str _ => 1
    | _ => 0
  if truthy cs.action = false then some "action"
  else if device_count = 0 then some "device"
  else if device_count > 1 ∧ truthy cs.multiple = false then some "location"
  else Option.none

/-- `DeviceAmountForm._next_slot` (actions.py lines 533-556). -/
def _next_slot_da (cs : Slots) : Option String :=
  match _next_slot_dl cs with
  | some ns => some ns
  | Option.none =>
    if cs.action = Val.str "set_absolute" ∨ cs.action = Val.str "set_relative" then
      if cs.amount = Val.none then some "amount"
      else if truthy cs.parameter = false then some "parameter"
      else Option.none
    else Option.none

/-- The "Found N devices in M locations…" clarification text
(actions.py lines 269-271 and 469-471). -/
def ambiguousMsg (nE nL : ℕ) : String :=
  s!"Found {nE} devices in {nL} locations, but it sounds like you only wanted one. Do you want to adjust them all?"

/-- The filter phrases and message of the empty-result branch shared by the
two runs (actions.py lines 231-259 and 426-459); `withAction` adds the
amount form's extra "that we can …" phrase.  The source's messages contain
an apostrophe; the wording here is equivalent. -/
def zeroBranch (h : Hass) (cs : Slots) (withAction : Bool) : Except String (List Event) :=
  let f1 : List String :=
    if truthy cs.location then ["in " ++ _english_list (asList cs.location) "and"] else []
  let f2 : List String :=
    match cs.device with
    | Val.none => []
    | v => ["called " ++ _english_list (asList v) "and"]
  match (match cs.parameter with
         | Val.none => Except.ok ([] : List String)
         | Val.str s => Except.ok ["with a " ++ s]
         | _ => Except.error "TypeError: can only concatenate str") with
  | Except.error e => Except.error e
  | Except.ok f3 =>
    match (if withAction then
            (match cs.action with
             | Val.none => Except.ok ([] : List String)
             | Val.str s => Except.ok ["that we can " ++ pyReplaceChar s '_' ' ']
             | _ => Except.error "AttributeError: replace")
           else Except.ok []) with
    | Except.error e => Except.error e
    | Except.ok f4 =>
      let filter_msg := String.intercalate " " (f1 ++ f2 ++ f3 ++ f4)
      let base := s!"Sorry, I do not know of any devices {filter_msg}."
      let msg :=
        match _find_alt h cs ["parameter", "action"] with
        | some alt => base ++ " " ++ alt
        | Option.none => base
      Except.ok [Event.botUttered msg, Event.allSlotsReset]

/-- The finalization of `DeviceLocationForm.run` (actions.py lines
276-303): write the matched entity ids into the device slot, collapse
singleton location and parameter, then request the next slot or terminate
the form. -/
def dlFinalize (s2s : List (String × Val)) (cs : Slots) (mr : MatchResult) : List Event :=
  let s2 := dictInsert s2s "device" (Val.list mr.entities)
  let s3 := _get_if_single s2 mr.areas "location"
  let s4 := _get_if_single s3 mr.attributes "parameter"
  let ret := s4.map (fun p => Event.slotSet p.1 p.2)
  let cs2 := applySlots cs s4
  match _next_slot_dl cs2 with
  | some ns => ret ++ [Event.slotSet REQUESTED_SLOT (Val.str ns)]
  | Option.none => ret ++ [Event.activeLoop Option.none]

/-- The finalization of `DeviceAmountForm.run` (actions.py lines 476-500):
additionally collapses a singleton action. -/
def daFinalize (s2s : List (String × Val)) (cs : Slots) (mr : MatchResult) : List Event :=
  let s2 := dictInsert s2s "device" (Val.list mr.entities)
  let s3 := _get_if_single s2 mr.actions "action"
  let s4 := _get_if_single s3 mr.areas "location"
  let s5 := _get_if_single s4 mr.attributes "parameter"
  let ret := s5.map (fun p => Event.slotSet p.1 p.2)
  let cs2 := applySlots cs s5
  match _next_slot_da cs2 with
  | some ns => ret ++ [Event.slotSet REQUESTED_SLOT (Val.str ns)]
  | Option.none => ret ++ [Event.activeLoop Option.none]

/-- Steps 1-5 of `DeviceLocationForm.run` (actions.py lines 205-218):
lowercase tracker slots, extract location then device, and return the
accumulated `slots_to_set` dict together with the updated current slots. -/
def dlPrepare (h : Hass) (tracker : Slots) : Except PyErr (List (String × Val) × Slots) :=
  match _extract_location h (get_slots_from_tracker tracker).location with
  | Except.error e => Except.error e
  | Except.ok s1 =>
    match _extract_device (get_slots_from_tracker tracker).device with
    | Except.error e => Except.error (PyErr.typeError e)
    | Except.ok s2 =>
      Except.ok (dictUpdate (dictUpdate [] s1) s2,
        applySlots (get_slots_from_tracker tracker) (dictUpdate (dictUpdate [] s1) s2))

/-- Steps 1-5 of `DeviceAmountForm.run` (actions.py lines 391-410):
additionally extract action and amount, in the source's order. -/
def daPrepare (h : Hass) (tracker : Slots) : Except PyErr (List (String × Val) × Slots) :=
  match _extract_location h (get_slots_from_tracker tracker).location with
  | Except.error e => Except.error e
  | Except.ok s1 =>
    match _extract_action (get_slots_from_tracker tracker).action with
    | Except.error e => Except.error e
    | Except.ok sA =>
      match _extract_device (get_slots_from_tracker tracker).device with
      | Except.error e => Except.error (PyErr.typeError e)
      | Except.ok sD =>
        Except.ok (dictUpdate (dictUpdate (dictUpdate (dictUpdate [] s1) sA)
          (_extract_amount (get_slots_from_tracker tracker).amount
            (get_slots_from_tracker tracker).action)) sD,
          applySlots (get_slots_from_tracker tracker)
            (dictUpdate (dictUpdate (dictUpdate (dictUpdate [] s1) sA)
              (_extract_amount (get_slots_from_tracker tracker).amount
                (get_slots_from_tracker tracker).action)) sD))

/-- `DeviceLocationForm.run` (actions.py lines 193-303).  `Except.error`
models an uncaught Python exception; a caught UnknownName becomes the
single BotUttered response of lines 212-213. -/
def deviceLocationRun (h : Hass) (tracker : Slots) : Except String (List Event) :=
  match dlPrepare h tracker with
  | Except.error (PyErr.unknownName m) => Except.ok [Event.botUttered m]
  | Except.error (PyErr.typeError m) => Except.error m
  | Except.ok (s2s, cs) =>
    let mr := match_entities h cs
    if mr.entities.length = 0 then zeroBranch h cs false
    else if mr.entities.length > 1 ∧ truthy cs.multiple = false then
      Except.ok (Event.botUttered (ambiguousMsg mr.entities.length mr.areas.length) ::
        s2s.map (fun p => Event.slotSet p.1 p.2))
    else Except.ok (dlFinalize s2s cs mr)

/-- `DeviceAmountForm.run` (actions.py lines 376-500). -/
def deviceAmountRun (h : Hass) (tracker : Slots) : Except String (List Event) :=
  match daPrepare h tracker with
  | Except.error (PyErr.unknownName m) => Except.ok [Event.botUttered m]
  | Except.error (PyErr.typeError m) => Except.error m
  | Except.ok (s2s, cs) =>
    let mr := match_entities h cs
    if mr.entities.length = 0 then zeroBranch h cs true
    else if mr.entities.length > 1 ∧ truthy cs.multiple = false then
      Except.ok (Event.botUttered (ambiguousMsg mr.entities.length mr.areas.length) ::
        s2s.map (fun p => Event.slotSet p.1 p.2))
    else Except.ok (daFinalize s2s cs mr)

/-! ## C7: which keys the pre-match slot updates can hold -/

/-- The slot keys the extraction steps write (never REQUESTED_SLOT). -/
def formSlotKeys : List String := ["location", "multiple", "device", "action", "amount"]

theorem mem_dictInsert_keys {α : Type} (d : List (String × α)) (k : String) (v : α)
    (p : String × α) (hp : p ∈ dictInsert d k v) : p.1 = k ∨ p ∈ d := by
  induction d with
  | nil =>
    rw [show dictInsert ([] : List (String × α)) k v = [(k, v)] from rfl] at hp
    rw [List.mem_singleton] at hp
    subst hp
    exact Or.inl rfl
  | cons q rest ih =>
    obtain ⟨k0, v0⟩ := q
    rw [show dictInsert ((k0, v0) :: rest) k v =
      (if k0 = k then (k, v) :: rest else (k0, v0) :: dictInsert rest k v) from rfl] at hp
    by_cases h0 : k0 = k
    · rw [if_pos h0] at hp
      rcases List.mem_cons.mp hp with rfl | hin
      · exact Or.inl rfl
      · exact Or.inr (List.mem_cons_of_mem _ hin)
    · rw [if_neg h0] at hp
      rcases List.mem_cons.mp hp with rfl | hin
      · exact Or.inr (List.mem_cons_self _ _)
      · rcases ih hin with hk | hd
        · exact Or.inl hk
        · exact Or.inr (List.mem_cons_of_mem _ hd)

theorem mem_dictUpdate_keys {α : Type} (upd : List (String × α)) (d : List (String × α))
    (p : String × α) (hp : p ∈ dictUpdate d upd) : p ∈ d ∨ p.1 ∈ upd.map Prod.fst := by
  induction upd generalizing d with
  | nil => exact Or.inl (by simpa [dictUpdate] using hp)
  | cons x u ih =>
    have hp2 : p ∈ dictUpdate (dictInsert d x.1 x.2) u := hp
    rcases ih _ hp2 with hin | hmem
    · rcases mem_dictInsert_keys d x.1 x.2 p hin with hk | hd
      · exact Or.inr (by simp [hk])
      · exact Or.inl hd
    · exact Or.inr (by simp [hmem])

theorem extract_location_keys (h : Hass) (v : Val) (upd : List (String × Val))
    (hok : _extract_location h v = Except.ok upd) :
    ∀ p ∈ upd, p.1 ∈ formSlotKeys := by
  intro p hp
  cases v <;>
    simp only [_extract_location, validate_location, truthy] at hok <;>
    (repeat' split at hok) <;>
    (try simp only [Except.ok.injEq] at hok) <;>
    (try subst hok) <;>
    (try simp_all [formSlotKeys]) <;>
    (try (rcases hp with rfl | rfl <;> simp [formSlotKeys]))

theorem extract_device_keys (v : Val) (upd : List (String × Val))
    (hok : _extract_device v = Except.ok upd) :
    ∀ p ∈ upd, p.1 ∈ formSlotKeys := by
  intro p hp
  cases v <;>
    simp only [_extract_device, truthy] at hok <;>
    (repeat' split at hok) <;>
    (try simp only [Except.ok.injEq] at hok) <;>
    (try subst hok) <;>
    (try simp_all [formSlotKeys]) <;>
    (try (rcases hp with rfl | rfl <;> simp [formSlotKeys]))

theorem extract_action_keys (v : Val) (upd : List (String × Val))
    (hok : _extract_action v = Except.ok upd) :
    ∀ p ∈ upd, p.1 ∈ formSlotKeys := by
  intro p hp
  cases v <;>
    simp only [_extract_action, truthy] at hok <;>
    (repeat' split at hok) <;>
    (try simp only [Except.ok.injEq] at hok) <;>
    (try subst hok) <;>
    (try simp_all [formSlotKeys]) <;>
    (try (rcases hp with rfl | rfl <;> simp [formSlotKeys]))

theorem extract_amount_keys (candidate action : Val) :
    ∀ p ∈ _extract_amount candidate action, p.1 ∈ formSlotKeys := by
  intro p hp
  cases candidate <;>
    simp only [_extract_amount, extractAmountStr] at hp <;>
    (repeat' split at hp) <;>
    (try simp_all [formSlotKeys]) <;>
    (try (rcases hp with rfl | rfl <;> simp [formSlotKeys]))

theorem dlPrepare_keys (h : Hass) (tracker : Slots) (s2s : List (String × Val)) (cs : Slots)
    (hok : dlPrepare h tracker = Except.ok (s2s, cs)) :
    ∀ p ∈ s2s, p.1 ∈ formSlotKeys := by
  intro p hp
  unfold dlPrepare at hok
  cases hl : _extract_location h (get_slots_from_tracker tracker).location with
  | error e => rw [hl] at hok; exact absurd hok (by simp)
  | ok s1 =>
    rw [hl] at hok
    cases hd : _extract_device (get_slots_from_tracker tracker).device with
    | error e => rw [hd] at hok; exact absurd hok (by simp)
    | ok s2 =>
      rw [hd] at hok
      have hok2 : (Except.ok (dictUpdate (dictUpdate [] s1) s2,
          applySlots (get_slots_from_tracker tracker) (dictUpdate (dictUpdate [] s1) s2)) :
          Except PyErr (List (String × Val) × Slots)) =
          Except.ok (s2s, cs) := hok
      have hs : dictUpdate (dictUpdate [] s1) s2 = s2s := by
        injection hok2 with hpair
        exact congrArg Prod.fst hpair
      rw [← hs] at hp
      rcases mem_dictUpdate_keys s2 _ p hp with hin | hmem
      · rcases mem_dictUpdate_keys s1 _ p hin with hin2 | hmem1
        · simp at hin2
        · obtain ⟨q, hq, hq1⟩ := List.mem_map.mp hmem1
          rw [← hq1]
          exact extract_location_keys h _ s1 hl q hq
      · obtain ⟨q, hq, hq1⟩ := List.mem_map.mp hmem
        rw [← hq1]
        exact extract_device_keys _ s2 hd q hq

theorem daPrepare_keys (h : Hass) (tracker : Slots) (s2s : List (String × Val)) (cs : Slots)
    (hok : daPrepare h tracker = Except.ok (s2s, cs)) :
    ∀ p ∈ s2s, p.1 ∈ formSlotKeys := by
  intro p hp
  unfold daPrepare at hok
  cases hl : _extract_location h (get_slots_from_tracker tracker).location with
  | error e => rw [hl] at hok; exact absurd hok (by simp)
  | ok s1 =>
    rw [hl] at hok
    cases ha : _extract_action (get_slots_from_tracker tracker).action with
    | error e => rw [ha] at hok; exact absurd hok (by simp)
    | ok sA =>
      rw [ha] at hok
      cases hd : _extract_device (get_slots_from_tracker tracker).device with
      | error e => rw [hd] at hok; exact absurd hok (by simp)
      | ok sD =>
        rw [hd] at hok
        have hok2 : (Except.ok (dictUpdate (dictUpdate (dictUpdate (dictUpdate [] s1) sA)
            (_extract_amount (get_slots_from_tracker tracker).amount
              (get_slots_from_tracker tracker).action)) sD,
            applySlots (get_slots_from_tracker tracker)
              (dictUpdate (dictUpdate (dictUpdate (dictUpdate [] s1) sA)
                (_extract_amount (get_slots_from_tracker tracker).amount
                  (get_slots_from_tracker tracker).action)) sD)) :
            Except PyErr (List (String × Val) × Slots)) =
            Except.ok (s2s, cs) := hok
        have hs : dictUpdate (dictUpdate (dictUpdate (dictUpdate [] s1) sA)
            (_extract_amount (get_slots_from_tracker tracker).amount
              (get_slots_from_tracker tracker).action)) sD = s2s := by
          injection hok2 with hpair
          exact congrArg Prod.fst hpair
        rw [← hs] at hp
        rcases mem_dictUpdate_keys sD _ p hp with hin | hmem
        · rcases mem_dictUpdate_keys _ _ p hin with hin2 | hmem2
          · rcases mem_dictUpdate_keys sA _ p hin2 with hin3 | hmem3
            · rcases mem_dictUpdate_keys s1 _ p hin3 with hin4 | hmem4
              · simp at hin4
              · obtain ⟨q, hq, hq1⟩ := List.mem_map.mp hmem4
                rw [← hq1]
                exact extract_location_keys h _ s1 hl q hq
            · obtain ⟨q, hq, hq1⟩ := List.mem_map.mp hmem3
              rw [← hq1]
              exact extract_action_keys _ sA ha q hq
          · obtain ⟨q, hq, hq1⟩ := List.mem_map.mp hmem2
            rw [← hq1]
            exact extract_amount_keys _ _ q hq
        · obtain ⟨q, hq, hq1⟩ := List.mem_map.mp hmem
          rw [← hq1]
          exact extract_device_keys _ sD hd q hq

/-- The event-list properties of the ambiguous branch, given that the slot
updates only use the form slot keys. -/
theorem ambiguous_events_props (s2s : List (String × Val)) (msg : String)
    (hkeys : ∀ p ∈ s2s, p.1 ∈ formSlotKeys) :
    (∀ v, Event.slotSet REQUESTED_SLOT v ∉
      (Event.botUttered msg :: s2s.map (fun p => Event.slotSet p.1 p.2))) ∧
    (∀ o, Event.activeLoop o ∉
      (Event.botUttered msg :: s2s.map (fun p => Event.slotSet p.1 p.2))) ∧
    (∀ v, Event.slotSet "device" v ∈
      (Event.botUttered msg :: s2s.map (fun p => Event.slotSet p.1 p.2)) →
      ("device", v) ∈ s2s) := by
  refine ⟨?_, ?_, ?_⟩
  · intro vv hv
    rcases List.mem_cons.mp hv with heq | hmap
    · exact Event.noConfusion heq
    · obtain ⟨p, hpmem, heq⟩ := List.mem_map.mp hmap
      injection heq with h1 h2
      have hmem := hkeys p hpmem
      rw [h1] at hmem
      exact absurd hmem (by decide)
  · intro o ho
    rcases List.mem_cons.mp ho with heq | hmap
    · exact Event.noConfusion heq
    · obtain ⟨p, hpmem, heq⟩ := List.mem_map.mp hmap
      exact Event.noConfusion heq
  · intro vv hv
    rcases List.mem_cons.mp hv with heq | hmap
    · exact Event.noConfusion heq
    · obtain ⟨p, hpmem, heq⟩ := List.mem_map.mp hmap
      injection heq with h1 h2
      have hpe : p = ("device", vv) := by
        obtain ⟨pk, pv⟩ := p
        simp only at h1 h2
        rw [h1, h2]
      rw [← hpe]
      exact hpmem

/-- C7: whenever a form turn reaches the matcher, the matcher returns more
than one device id and the multiple slot is falsy, both form runs return a
clarifying question (the "Found N devices…adjust them all?" BotUttered)
followed by exactly the just-computed partial slot updates: they do not
write the matched device ids into the device slot (every device SlotSet in
the response comes from the pre-match updates), do not set a requested
slot, and do not terminate the active form (no ActiveLoop event). -/
theorem c7_ambiguous_returns_clarification :
    ∀ (h : Hass) (tracker : Slots) (s2s : List (String × Val)) (cs : Slots),
      ((dlPrepare h tracker = Except.ok (s2s, cs) →
        1 < (match_entities h cs).entities.length →
        truthy cs.multiple = false →
        ∃ evs, deviceLocationRun h tracker = Except.ok evs ∧
          evs = Event.botUttered (ambiguousMsg (match_entities h cs).entities.length
            (match_entities h cs).areas.length) :: s2s.map (fun p => Event.slotSet p.1 p.2) ∧
          (∀ v, Event.slotSet REQUESTED_SLOT v ∉ evs) ∧
          (∀ o, Event.activeLoop o ∉ evs) ∧
          (∀ v, Event.slotSet "device" v ∈ evs → ("device", v) ∈ s2s)) ∧
       (daPrepare h tracker = Except.ok (s2s, cs) →
        1 < (match_entities h cs).entities.length →
        truthy cs.multiple = false →
        ∃ evs, deviceAmountRun h tracker = Except.ok evs ∧
          evs = Event.botUttered (ambiguousMsg (match_entities h cs).entities.length
            (match_entities h cs).areas.length) :: s2s.map (fun p => Event.slotSet p.1 p.2) ∧
          (∀ v, Event.slotSet REQUESTED_SLOT v ∉ evs) ∧
          (∀ o, Event.activeLoop o ∉ evs) ∧
          (∀ v, Event.slotSet "device" v ∈ evs → ("device", v) ∈ s2s))) := by
  intro h tracker s2s cs
  constructor
  · intro hprep hgt hmul
    have hrun : deviceLocationRun h tracker =
        (if (match_entities h cs).entities.length = 0 then zeroBranch h cs false
         else if (match_entities h cs).entities.length > 1 ∧ truthy cs.multiple = false then
           Except.ok (Event.botUttered (ambiguousMsg (match_entities h cs).entities.length
             (match_entities h cs).areas.length) :: s2s.map (fun p => Event.slotSet p.1 p.2))
         else Except.ok (dlFinalize s2s cs (match_entities h cs))) := by
      unfold deviceLocationRun
      rw [hprep]
    rw [if_neg (by omega), if_pos ⟨hgt, hmul⟩] at hrun
    obtain ⟨hr, ho, hd⟩ := ambiguous_events_props s2s
      (ambiguousMsg (match_entities h cs).entities.length (match_entities h cs).areas.length)
      (dlPrepare_keys h tracker s2s cs hprep)
    exact ⟨_, hrun, rfl, hr, ho, hd⟩
  · intro hprep hgt hmul
    have hrun : deviceAmountRun h tracker =
        (if (match_entities h cs).entities.length = 0 then zeroBranch h cs true
         else if (match_entities h cs).entities.length > 1 ∧ truthy cs.multiple = false then
           Except.ok (Event.botUttered (ambiguousMsg (match_entities h cs).entities.length
             (match_entities h cs).areas.length) :: s2s.map (fun p => Event.slotSet p.1 p.2))
         else Except.ok (daFinalize s2s cs (match_entities h cs))) := by
      unfold deviceAmountRun
      rw [hprep]
    rw [if_neg (by omega), if_pos ⟨hgt, hmul⟩] at hrun
    obtain ⟨hr, ho, hd⟩ := ambiguous_events_props s2s
      (ambiguousMsg (match_entities h cs).entities.length (match_entities h cs).areas.length)
      (daPrepare_keys h tracker s2s cs hprep)
    exact ⟨_, hrun, rfl, hr, ho, hd⟩

/-- Two lamps in one office for the C7 witness. -/
def c7Entity1 : EntityInfo :=
  { names := ["lamp one"], domain := "light", attributes := ["brightness"],
    action := ["turn_on", "turn_off"] }

def c7Entity2 : EntityInfo :=
  { names := ["lamp two"], domain := "light", attributes := ["brightness"],
    action := ["turn_on", "turn_off"] }

def c7Hass : Hass :=
  { entity_by_id := [("e1", c7Entity1), ("e2", c7Entity2)],
    area_by_id := [("a1", { names := ["office"], entity_ids := ["e1", "e2"] })],
    floor_by_id := [], area_by_name := [("office", "a1")], floor_by_name := [] }

/-- A turn asking about "light" with no multiple intent. -/
def c7Tracker : Slots :=
  { location := Val.none, device := Val.str "light", parameter := Val.none,
    action := Val.none, amount := Val.none, multiple := Val.none }

/-- The merged slots after the extraction steps of that turn. -/
def c7Cs : Slots :=
  { location := Val.none, device := Val.list ["light"], parameter := Val.none,
    action := Val.none, amount := Val.none, multiple := Val.none }

/-- Witness for C7: two lights match a singular "light" request, and both
form runs answer with the clarification plus only the partial updates. -/
theorem c7_witness :
    deviceLocationRun c7Hass c7Tracker = Except.ok
      (Event.botUttered (ambiguousMsg 2 1) :: [Event.slotSet "device" (Val.list ["light"])]) ∧
    deviceAmountRun c7Hass c7Tracker = Except.ok
      (Event.botUttered (ambiguousMsg 2 1) ::
        [Event.slotSet "amount" Val.none, Event.slotSet "device" (Val.list ["light"])]) := by
  obtain ⟨evs1, h1, he1, -, -, -⟩ :=
    (c7_ambiguous_returns_clarification c7Hass c7Tracker [("device", Val.list ["light"])] c7Cs).1
      (by rfl) (by decide) (by rfl)
  obtain ⟨evs2, h2, he2, -, -, -⟩ :=
    (c7_ambiguous_returns_clarification c7Hass c7Tracker
      [("amount", Val.none), ("device", Val.list ["light"])] c7Cs).2
      (by rfl) (by decide) (by rfl)
  constructor
  · rw [h1, he1]
    congr 1
  · rw [h2, he2]
    congr 1

end Rasa
